import Mathlib

/-!
Verification development for the FSFS revision storage engine and the
file-based diff engine (`libsvn_fs_fs/fs_fs.c`, `libsvn_diff/diff_file.c`).

The definitions below are shallow embeddings of the C functions: pure
functions over lists and explicit state records, with C byte buffers
modelled as `List Char` or `List Nat` (byte values), machine integers as
`Nat`/`Int`, and fallible code returning `Except`.  External collaborators
that the embedded functions merely invoke (the MD5 primitive, the
`svn_diff__normalize_buffer` normalizer, the Adler-32 hash) are passed in
as function parameters, so every theorem below holds for all behaviours of
those collaborators.
-/

set_option maxRecDepth 8000

deriving instance DecidableEq for Except

namespace FsFs

/-- Error kinds surfaced by the filesystem layer, mirroring `svn_error_create`
calls with `SVN_ERR_FS_CORRUPT`, `SVN_ERR_FS_TXN_OUT_OF_DATE`, etc.
`corrupt` carries the message string used at the call site;
`corruptWithDigests` models the checksum-mismatch error of
`rep_read_contents`, which formats both the expected and the actual digest
into the error. -/
inductive FsError where
  | corrupt (msg : String)
  | corruptWithDigests (msg : String) (expected actual : List Nat)
  | txnOutOfDate
  | noSuchRevision
  deriving DecidableEq, Repr

/-- Model of `svn_fs_path_change_kind_t`. -/
inductive ChangeKind where
  | modify
  | add
  | delete
  | replace
  | reset
  deriving DecidableEq, Repr

/-- A node-revision identifier (`svn_fs_id_t`): node key, copy key, and a
location that is either a transaction id (mutable node) or a committed
`(rev, offset)` pair.  `svn_fs_fs__id_txn_id` returns non-NULL exactly when
`txn_id` is `some`. -/
structure NodeRevId where
  node_id : String
  copy_id : String
  txn_id : Option String
  rev : Option Nat
  offset : Option Nat
  deriving DecidableEq, Repr

/-- Model of `svn_fs_fs__id_txn_id` (NULL modelled as `none`). -/
def idTxnId (id : NodeRevId) : Option String := id.txn_id

/- ----------------------------------------------------------------- -/
/- `read_rep_offsets`: the MD5 field of a representation descriptor. -/
/- ----------------------------------------------------------------- -/

/-- C `isxdigit` in the POSIX locale, over byte values. -/
def isxdigit (c : Nat) : Bool :=
  (48 ≤ c && c ≤ 57) || (97 ≤ c && c ≤ 102) || (65 ≤ c && c ≤ 70)

/-- C `tolower` restricted to ASCII, over byte values. -/
def tolowerByte (c : Nat) : Nat :=
  if 65 ≤ c ∧ c ≤ 90 then c + 32 else c

/-- The value computation `c - ((c <= '9') ? '0' : ('a' - 10))` performed on a
lowercased hex digit in `read_rep_offsets`. -/
def hexNibble (c : Nat) : Nat :=
  let c := tolowerByte c
  if c ≤ 57 then c - 48 else c - 87

/-- The MD5-field portion of `read_rep_offsets` (fs_fs.c:511-532): the field
must be exactly `APR_MD5_DIGESTSIZE * 2 = 32` characters, every character
must satisfy `isxdigit`, and each pair of digits is folded (after `tolower`)
into one byte of the 16-byte digest.  Any violation is `SVN_ERR_FS_CORRUPT`
with the message "Malformed text rep offset line in node-rev". -/
def read_rep_md5 (str : List Nat) : Except FsError (List Nat) :=
  if str.length ≠ 16 * 2 then
    .error (.corrupt "Malformed text rep offset line in node-rev")
  else
    go str
where
  go : List Nat → Except FsError (List Nat)
    | [] => .ok []
    | c1 :: c2 :: rest =>
      if ¬ isxdigit c1 ∨ ¬ isxdigit c2 then
        .error (.corrupt "Malformed text rep offset line in node-rev")
      else
        match go rest with
        | .error e => .error e
        | .ok bytes => .ok ((hexNibble c1 * 16 + hexNibble c2) :: bytes)
    | [_] => .error (.corrupt "Malformed text rep offset line in node-rev")

/- ------------------------------------------------------------ -/
/- `get_root_changes_offset`: locating the revision-file trailer. -/
/- ------------------------------------------------------------ -/

/-- The `apr_atoi64` semantics as used on the trailer line: skip leading
whitespace, accept an optional sign, and consume decimal digits (zero if
none). -/
def aprAtoi64 (s : List Char) : Int :=
  let s := s.dropWhile (fun c => c = ' ' ∨ c = '\t' ∨ c = '\n' ∨ c = '\r')
  match s with
  | '-' :: rest => - (digits rest 0)
  | '+' :: rest => digits rest 0
  | _ => digits s 0
where
  digits : List Char → Int → Int
    | c :: rest, acc =>
      if '0' ≤ c ∧ c ≤ '9' then digits rest (acc * 10 + (c.toNat - '0'.toNat))
      else acc
    | [], acc => acc

/-- The backward scan `for (i = num_bytes - 2; i >= 0; i--)` that stops at
`buf[i] == '\n'`: returns the largest index `i ≤ start` holding a newline,
if any. -/
def scanBackNewline (buf : List Char) : Nat → Option Nat
  | 0 => if buf.getD 0 ' ' = '\n' then some 0 else none
  | i + 1 => if buf.getD (i + 1) ' ' = '\n' then some (i + 1) else scanBackNewline buf i

/-- The forward scan `for ( ; i < bound ; i++) if (buf[i] == ' ') break;`
with `rem = bound - i` remaining iterations: returns the first index at or
after the entry index holding a space, or the bound when no space is found
before it. -/
def scanForwardSpaceAux (buf : List Char) : Nat → Nat → Nat
  | i, 0 => i
  | i, rem + 1 => if buf.getD i ' ' = ' ' then i else scanForwardSpaceAux buf (i + 1) rem

/-- The forward scan of `get_root_changes_offset` from index `i` with bound
`num_bytes - 3` (the loop guard of fs_fs.c:957). -/
def scanForwardSpace (buf : List Char) (i bound : Nat) : Nat :=
  scanForwardSpaceAux buf i (bound - i)

/-- Model of `get_root_changes_offset` (fs_fs.c:906-970) applied to the final 64-byte
block `buf` of a revision file: the function seeks to `size-64`, reads 64
bytes (`num_bytes` is the number of bytes actually read; for any revision
file of at least 64 bytes this is exactly 64), requires the last byte to be
a newline, scans backward for the previous newline, parses the root offset,
scans forward for a space under the loop bound `num_bytes - 3`, raises the
missing-space error only when the scan position equals `num_bytes - 2`, and
otherwise parses the changed-paths offset.  Returns the parsed
`(root_offset, changes_offset)` pair or the corruption error raised. -/
def get_root_changes_offset (buf : List Char) : Except FsError (Int × Int) :=
  let num_bytes := buf.length
  -- The last byte should be a newline.
  if buf.getD (num_bytes - 1) ' ' ≠ '\n' then
    .error (.corrupt "Revision file lacks trailing newline")
  else
    -- Look for the next previous newline.
    match scanBackNewline buf (num_bytes - 2) with
    | none =>
      .error (.corrupt "Final line in revision file longer than 64 characters")
    | some i =>
      let root_offset := aprAtoi64 (buf.drop i)
      -- find the next space
      let i := scanForwardSpace buf i (num_bytes - 3)
      if i = num_bytes - 2 then
        .error (.corrupt "Final line in revision file missing space")
      else
        let i := i + 1
        let changes_offset := aprAtoi64 (buf.drop i)
        .ok (root_offset, changes_offset)

/- --------------------------------------------- -/
/- `fold_change`: folding the per-path change log. -/
/- --------------------------------------------- -/

/-- Model of `svn_fs_path_change_t`: the public, folded per-path change summary. -/
structure SvnPathChange where
  node_rev_id : Option NodeRevId
  change_kind : ChangeKind
  text_mod : Bool
  prop_mod : Bool
  deriving DecidableEq, Repr

/-- Model of `change_t`: one raw entry of the transaction's `changes` log. -/
structure ChangeT where
  path : String
  noderev_id : Option NodeRevId
  kind : ChangeKind
  text_mod : Bool
  prop_mod : Bool
  /-- Value `SVN_INVALID_REVNUM` modelled as `none`. -/
  copyfrom_rev : Option Nat
  copyfrom_path : String
  deriving DecidableEq, Repr

/-- Model of `apr_hash_get`: look a key up in a hash modelled as an association list. -/
def hashGet {α : Type} (h : List (String × α)) (k : String) : Option α :=
  (h.find? (fun p => p.1 = k)).map (fun p => p.2)

/-- Model of `apr_hash_set`: setting a key to a value, where setting NULL (`none`)
removes the key, exactly as in APR. -/
def hashSet {α : Type} (h : List (String × α)) (k : String) : Option α → List (String × α)
  | none => h.filter (fun p => p.1 ≠ k)
  | some v => (k, v) :: h.filter (fun p => p.1 ≠ k)

/-- The copyfrom string `apr_psprintf(pool, "%ld %s", rev, path)` (or the
empty string when there is no copyfrom revision) built by `fold_change` and
`svn_fs_fs__add_change`. -/
def copyfromString (copyfrom_rev : Option Nat) (copyfrom_path : String) : String :=
  match copyfrom_rev with
  | none => ""
  | some r => toString r ++ " " ++ copyfrom_path

/-- Model of `fold_change` (fs_fs.c:1777-1934): merge one raw change into the folded
per-path hash `changes`, keeping `copyfrom_hash` up to date.  The C
`svn_fs_fs__id_eq` comparison is modelled as equality of identifiers; a
recorded entry without an id (possible only for a freshly inserted reset)
compares unequal to any present id. -/
def fold_change (changes : List (String × SvnPathChange))
    (copyfrom_hash : List (String × String))
    (change : ChangeT) :
    Except FsError (List (String × SvnPathChange) × List (String × String)) :=
  match hashGet changes change.path with
  | some old_change =>
    -- Sanity check: only allow NULL node revision ID in the `reset' case.
    if change.noderev_id = none ∧ change.kind ≠ ChangeKind.reset then
      .error (.corrupt "Missing required node revision ID")
    -- Sanity check: we should be talking about the same node revision ID as
    -- our last change except where the last change was a deletion.
    else if change.noderev_id.isSome ∧ old_change.node_rev_id ≠ change.noderev_id ∧
        old_change.change_kind ≠ ChangeKind.delete then
      .error (.corrupt "Invalid change ordering: new node revision ID without delete")
    -- Sanity check: an add, replacement, or reset must be the first thing to
    -- follow a deletion.
    else if old_change.change_kind = ChangeKind.delete ∧
        ¬ (change.kind = ChangeKind.replace ∨ change.kind = ChangeKind.reset ∨
           change.kind = ChangeKind.add) then
      .error (.corrupt "Invalid change ordering: non-add change on deleted path")
    else
      let folded : Option SvnPathChange × Option String :=
        match change.kind with
        | ChangeKind.reset =>
          (none, none)
        | ChangeKind.delete =>
          (if old_change.change_kind = ChangeKind.add then
             -- Introduced by add in this transaction: remove the path altogether.
             none
           else
             -- A deletion overrules all previous changes.
             some { old_change with
                      change_kind := ChangeKind.delete
                      text_mod := change.text_mod
                      prop_mod := change.prop_mod },
           none)
        | ChangeKind.add | ChangeKind.replace =>
          (some { old_change with
                    change_kind := ChangeKind.replace
                    node_rev_id := change.noderev_id
                    text_mod := change.text_mod
                    prop_mod := change.prop_mod },
           some (copyfromString change.copyfrom_rev change.copyfrom_path))
        | ChangeKind.modify =>
          (some { old_change with
                    text_mod := old_change.text_mod || change.text_mod
                    prop_mod := old_change.prop_mod || change.prop_mod },
           hashGet copyfrom_hash change.path)
      .ok (hashSet changes change.path folded.1,
           hashSet copyfrom_hash change.path folded.2)
  | none =>
    -- This change is new to the hash.
    let new_change : SvnPathChange :=
      { node_rev_id := change.noderev_id
        change_kind := change.kind
        text_mod := change.text_mod
        prop_mod := change.prop_mod }
    .ok (hashSet changes change.path (some new_change),
         hashSet copyfrom_hash change.path
           (some (copyfromString change.copyfrom_rev change.copyfrom_path)))

/- -------------------------------------------------------- -/
/- `write_final_changed_path_info`: the committed change log. -/
/- -------------------------------------------------------- -/

/-- The id-rewriting step of `write_final_changed_path_info`
(fs_fs.c:3367-3380) applied to one folded change entry.  `getNodeRevId`
models `svn_fs_fs__get_node_revision` restricted to the `id` field of the
node-revision it returns: after `write_final_rev` has walked the mutable
tree, looking up a transaction node returns the permanent revision-qualified
id stored there by `svn_fs_fs__put_node_revision`.  The C condition is
`(change->change_kind != svn_fs_path_change_delete) &&
(! svn_fs_fs__id_txn_id (id))`. -/
def final_change_entry (getNodeRevId : NodeRevId → Option NodeRevId)
    (change : SvnPathChange) : Except FsError SvnPathChange :=
  match change.node_rev_id with
  | none => .ok change
  | some id =>
    if change.change_kind ≠ ChangeKind.delete ∧ idTxnId id = none then
      match getNodeRevId id with
      | none => .error .noSuchRevision
      | some newId => .ok { change with node_rev_id := some newId }
    else
      .ok change

/-- The per-entry loop of `write_final_changed_path_info` (fs_fs.c:3353-3387)
over the folded change entries: rewrite each entry's id via
`final_change_entry` and collect the entries in emission order. -/
def write_final_changed_path_info (getNodeRevId : NodeRevId → Option NodeRevId)
    (entries : List (String × SvnPathChange)) :
    Except FsError (List (String × SvnPathChange)) :=
  match entries with
  | [] => .ok []
  | (path, change) :: rest =>
    match final_change_entry getNodeRevId change with
    | .error e => .error e
    | .ok change' =>
      match write_final_changed_path_info getNodeRevId rest with
      | .error e => .error e
      | .ok rest' => .ok ((path, change') :: rest')

/- -------------------------------------- -/
/- `svn_fs_fs__commit`: the commit protocol. -/
/- -------------------------------------- -/

/-- A transaction handle (`svn_fs_txn_t`): its id and base revision. -/
structure Txn where
  id : String
  base_rev : Nat
  deriving DecidableEq, Repr

/-- The on-disk repository layout visible to `svn_fs_fs__commit`: the
revision recorded in the `current` file, the committed `revs/<rev>` and
`revprops/<rev>` files present, and the transaction directories present. -/
structure Repo where
  current_rev : Nat
  revFiles : List Nat
  revpropFiles : List Nat
  txnDirs : List String
  deriving DecidableEq, Repr

/-- Model of `svn_fs_fs__commit` (fs_fs.c:3463-3555) as a state transformer, run
under the write lock.  `svn_fs_fs__youngest_rev` re-reads `current` inside
the critical section; when the transaction's base revision differs from it,
the function returns `SVN_ERR_FS_TXN_OUT_OF_DATE` before any repository
mutation (all writes up to that point are confined to the transaction's own
proto-rev file).  On success the proto-rev file is promoted to
`revs/<new_rev>`, the transaction props to `revprops/<new_rev>`, `current`
is rewritten, and the transaction directory is purged. -/
def svn_fs_fs__commit (repo : Repo) (txn : Txn) : Repo × Except FsError Nat :=
  let old_rev := repo.current_rev
  if txn.base_rev ≠ old_rev then
    (repo, .error .txnOutOfDate)
  else
    let new_rev := old_rev + 1
    -- write_final_rev, write_final_changed_path_info and the trailer append
    -- to the proto-rev file inside the transaction directory.
    -- move_into_place (proto_rev, revs/<new_rev>, revs/<old_rev>)
    let repo := { repo with revFiles := new_rev :: repo.revFiles }
    -- move_into_place (txn props, revprops/<new_rev>, revs/<old_rev>)
    let repo := { repo with revpropFiles := new_rev :: repo.revpropFiles }
    -- write_final_current
    let repo := { repo with current_rev := new_rev }
    -- svn_fs_fs__purge_txn
    let repo := { repo with txnDirs := repo.txnDirs.filter (fun t => t ≠ txn.id) }
    (repo, .ok new_rev)

/- ----------------------------------------------- -/
/- `rep_read_contents`: MD5 discipline of rep reads. -/
/- ----------------------------------------------- -/

/-- The checksumming fields of `rep_read_baton` (fs_fs.c:1203-1240).  The
running `apr_md5_ctx_t` is modelled by the list of bytes fed to it so far
(`hashed`); `apr_md5_final` is an arbitrary digest function over that
list. -/
structure RepReadBaton where
  hashed : List Nat
  checksum_finalized : Bool
  /-- The stored digest of the representation (rep->checksum). -/
  checksum : List Nat
  /-- rep->expanded_size. -/
  len : Nat
  /-- Cumulative number of bytes delivered so far. -/
  off : Nat
  deriving DecidableEq, Repr

/-- The checksumming wrapper `rep_read_contents` (fs_fs.c:1461-1495) applied
to one read that delivered `bytes` (the output of `get_contents`): if the
checksum is not yet finalized, feed the delivered bytes to the running MD5
and advance `off`; exactly when `off` reaches `len`, finalize (at most once)
and compare the digest, raising the checksum-mismatch corruption error that
reports both digests. `md5` stands for `apr_md5_final` over all bytes fed to
the context. -/
def rep_read_contents (md5 : List Nat → List Nat) (rb : RepReadBaton)
    (bytes : List Nat) : Except FsError RepReadBaton :=
  if rb.checksum_finalized then
    .ok rb
  else
    let rb := { rb with
                  hashed := rb.hashed ++ bytes
                  off := rb.off + bytes.length }
    if rb.off = rb.len then
      let rb := { rb with checksum_finalized := true }
      let digest := md5 rb.hashed
      if digest = rb.checksum then
        .ok rb
      else
        .error (.corruptWithDigests "Checksum mismatch while reading representation"
                  rb.checksum digest)
    else
      .ok rb

/- ------------------------------------------------- -/
/- `choose_delta_base` and the delta-chain skip list.  -/
/- ------------------------------------------------- -/

/-- The fields of a node-revision that `choose_delta_base` consults.
Representation handles are abstract (`Option Nat`; `none` is a node-rev
without a data representation). -/
structure NodeRevP where
  predecessor_count : Nat
  predecessor_id : Option Nat
  data_rep : Option Nat
  deriving DecidableEq, Repr

/-- The walk `while ((count++) < noderev->predecessor_count)
base = get_node_revision(base->predecessor_id)` of `choose_delta_base`,
unrolled over its iteration count `steps`. -/
def walkPredecessors (getNode : Nat → Option NodeRevP) :
    Nat → NodeRevP → Except FsError NodeRevP
  | 0, base => .ok base
  | steps + 1, base =>
    match base.predecessor_id with
    | none => .error (.corrupt "Corrupt node-id in node-rev")
    | some pid =>
      match getNode pid with
      | none => .error .noSuchRevision
      | some b => walkPredecessors getNode steps b

/-- Model of `choose_delta_base` (fs_fs.c:2833-2869): with no predecessors the base
is the empty stream (`none`); otherwise clear the lowest set bit of the
predecessor count (`count & (count - 1)`) and walk back a number of
predecessor links equal to the difference, returning that ancestor's data
representation. -/
def choose_delta_base (getNode : Nat → Option NodeRevP) (noderev : NodeRevP) :
    Except FsError (Option Nat) :=
  if noderev.predecessor_count = 0 then
    .ok none
  else
    let count := noderev.predecessor_count &&& (noderev.predecessor_count - 1)
    match walkPredecessors getNode (noderev.predecessor_count - count) noderev with
    | .error e => .error e
    | .ok base => .ok base.data_rep

/-- Number of set bits in a binary numeral. -/
def popcount : Nat → Nat
  | 0 => 0
  | n + 1 => popcount ((n + 1) / 2) + (n + 1) % 2
decreasing_by exact Nat.div_lt_self (Nat.succ_pos _) (by omega)

/-- The number of layers in the delta chain that `build_rep_list`
(fs_fs.c:1142-1200) traverses to reconstruct the contents of a node-rev
with the given predecessor count, in a repository whose delta bases were
chosen by `choose_delta_base`: a node with count `0` deltas against the
empty stream (one layer); a node with count `n > 0` deltas against the
ancestor with count `n &&& (n - 1)`, adding one layer. -/
def deltaChainLength (n : Nat) : Nat :=
  if h : n = 0 then 1
  else 1 + deltaChainLength (n &&& (n - 1))
decreasing_by
  exact Nat.lt_of_le_of_lt Nat.and_le_right (by omega)

end FsFs

namespace DiffFile

/-- The constant `CHUNK_SHIFT` (diff_file.c:122). -/
def CHUNK_SHIFT : Nat := 17

/-- The constant `CHUNK_SIZE = 1 << CHUNK_SHIFT` (diff_file.c:123): files are read in
chunks of 128k. -/
def CHUNK_SIZE : Nat := 1 <<< CHUNK_SHIFT

/-- Model of `chunk_to_offset` (diff_file.c:125). -/
def chunk_to_offset (chunk : Nat) : Nat := chunk <<< CHUNK_SHIFT

/-- Model of `offset_to_chunk` (diff_file.c:126). -/
def offset_to_chunk (offset : Nat) : Nat := offset >>> CHUNK_SHIFT

/-- Model of `offset_in_chunk` (diff_file.c:127). -/
def offset_in_chunk (offset : Nat) : Nat := offset &&& (CHUNK_SIZE - 1)

/-- Errors raised by the diff file layer
(`SVN_ERR_DIFF_DATASOURCE_MODIFIED`, carrying the offending file's path). -/
inductive DiffError where
  | datasourceModified (path : String)
  deriving DecidableEq, Repr

/-- The collaborator `svn_diff__normalize_buffer` (libsvn_diff/util.c, not
under src/): given the carried normalization state and an input window, it
returns the offset of the normalized output within the window, the
normalized bytes, and the updated state.  All theorems below hold for every
normalizer of this shape. -/
abbrev Normalizer := Nat → List Char → Nat × List Char × Nat

/-- The collaborator `svn_diff__adler32` (an arbitrary rolling hash). -/
abbrev Adler := Nat → List Char → Nat

/-- Model of `read_chunk` (diff_file.c:133-143): `len` bytes of the file starting at
`offset`; a read of zero bytes touches nothing. -/
def sliceLen (content : List Char) (offset len : Nat) : List Char :=
  if len = 0 then [] else (content.drop offset).take len

/-- Model of `svn_eol__find_eol_start` (libsvn_subr, not under src/).  Modelled from
the spec: a line boundary is the next occurrence of a CR or LF byte (CRLF
is handled by the caller).  Returns the index of the first CR or LF. -/
def find_eol_start : List Char → Option Nat
  | [] => none
  | c :: rest =>
    if c = '\n' ∨ c = '\r' then some 0
    else (find_eol_start rest).map (fun i => i + 1)

/-- The per-datasource `file_info` fields used by the tokenizer.  `curp` and
`endp` are kept as indices into the resident chunk buffer (`curp` is the
read position, `endp` the number of valid bytes). -/
structure FileInfo where
  path : String
  size : Nat
  chunk : Nat
  curp : Nat
  endp : Nat
  normalize_state : Nat
  suffix_start_chunk : Nat
  suffix_offset_in_chunk : Nat
  deriving DecidableEq, Repr

/-- Model of `svn_diff__file_token_t`. -/
structure FileToken where
  offset : Nat
  norm_offset : Nat
  raw_length : Nat
  length : Nat
  deriving DecidableEq, Repr

/-- The bytes of the resident chunk between indices `curp` and `endp`,
which is what `svn_eol__find_eol_start (curp, endp - curp)` scans. -/
def bufRegion (content : List Char) (chunk curp endp : Nat) : List Char :=
  sliceLen content (chunk_to_offset chunk + curp) (endp - curp)

/-- The byte at index `idx` of the resident chunk.  A read at or past `endp`
(reachable only through the trailing-CR path when the final chunk is empty,
where the C code inspects a stale buffer byte) yields NUL, standing for the
indeterminate stale contents. -/
def bufByte (content : List Char) (chunk idx endp : Nat) : Char :=
  if idx < endp then content.getD (chunk_to_offset chunk + idx) '\x00' else '\x00'

/-- The mutable state threaded through the tokenizer's scan loop: the
resident chunk and pointers, the carried normalization state, and the
token's accumulated raw and normalized lengths and hash. -/
structure TokState where
  chunk : Nat
  curp : Nat
  endp : Nat
  norm_state : Nat
  raw_length : Nat
  length : Nat
  h : Nat
  deriving DecidableEq, Repr

/-- The `while (1)` scan loop of `datasource_get_next_token`
(diff_file.c:698-749), returning the buffer index `eol` that ends the token
in the final resident chunk together with the final state.  `fuel` bounds
the number of chunk advances; the tokenizer calls it with enough fuel to
reach the last chunk, and the loop stops there. -/
def tokenScan (normalize : Normalizer) (adler : Adler) (content : List Char)
    (size : Nat) : Nat → Bool → TokState → Nat × TokState
  | 0, _, st => (st.curp, st)
  | fuel + 1, had_cr, st =>
    let last_chunk := offset_to_chunk size
    let step : Bool → Nat × TokState := fun had_cr =>
      if st.chunk = last_chunk then
        (st.endp, st)
      else
        -- Advance to the next chunk: normalize and hash the remainder of
        -- the current chunk, then read the next one.
        let len0 := st.endp - st.curp
        let nres := normalize st.norm_state (bufRegion content st.chunk st.curp st.endp)
        let chunk' := st.chunk + 1
        let endp' := if chunk' = last_chunk then offset_in_chunk size else CHUNK_SIZE
        let st' : TokState :=
          { chunk := chunk', curp := 0, endp := endp'
            norm_state := nres.2.2
            raw_length := st.raw_length + len0
            length := st.length + nres.2.1.length
            h := adler st.h nres.2.1 }
        if had_cr then
          -- If the last chunk ended in a CR, we're done.
          (if bufByte content chunk' 0 endp' = '\n' then 1 else 0, st')
        else
          tokenScan normalize adler content size fuel had_cr st'
    match find_eol_start (bufRegion content st.chunk st.curp st.endp) with
    | some idx =>
      let had_cr' := bufByte content st.chunk (st.curp + idx) st.endp = '\r'
      let eol := st.curp + idx + 1
      if ¬ (had_cr' ∧ eol = st.endp) then
        -- Also skip past the '\n' in an '\r\n' sequence.
        (if had_cr' ∧ bufByte content st.chunk eol st.endp = '\n' then eol + 1 else eol, st)
      else
        step had_cr'
    | none => step had_cr

/-- The result of `datasource_get_next_token`: the token hash (left at zero
when no token is produced), the token, and the updated file state. -/
structure TokenOut where
  hash : Nat
  token : Option FileToken
  file : FileInfo
  deriving DecidableEq, Repr

/-- Model of `datasource_get_next_token` (diff_file.c:646-779).  At end of file (the
read position at `endp` while the resident chunk is the last one) no token
is returned; likewise when the identical-suffix boundary has been reached.
Otherwise the scan loop accumulates the token across chunks, and a token is
emitted only when its unnormalized length is positive, so that a file whose
length is an exact multiple of `CHUNK_SIZE` does not yield a spurious
trailing empty token. -/
def datasource_get_next_token (normalize : Normalizer) (adler : Adler)
    (content : List Char) (file : FileInfo) : TokenOut :=
  let last_chunk := offset_to_chunk file.size
  if file.curp = file.endp ∧ file.chunk = last_chunk then
    { hash := 0, token := none, file := file }
  else if (file.suffix_start_chunk ≠ 0 ∨ file.suffix_offset_in_chunk ≠ 0) ∧
      file.chunk = file.suffix_start_chunk ∧ file.curp = file.suffix_offset_in_chunk then
    { hash := 0, token := none, file := file }
  else
    let tokOffset := chunk_to_offset file.chunk + file.curp
    let st0 : TokState :=
      { chunk := file.chunk, curp := file.curp, endp := file.endp
        norm_state := file.normalize_state, raw_length := 0, length := 0, h := 0 }
    let fuel := last_chunk + 1 - file.chunk
    let res := tokenScan normalize adler content file.size fuel false st0
    let eol := res.1
    let st := res.2
    let tailLen := eol - st.curp
    let raw_length := st.raw_length + tailLen
    let file' : FileInfo :=
      { file with chunk := st.chunk, curp := eol, endp := st.endp
                  normalize_state := st.norm_state }
    if raw_length > 0 then
      let nres := normalize st.norm_state
        (sliceLen content (chunk_to_offset st.chunk + st.curp) tailLen)
      let norm_offset := if st.length = 0 then tokOffset + nres.1 else tokOffset
      { hash := adler st.h nres.2.1
        token := some { offset := tokOffset, norm_offset := norm_offset
                        raw_length := raw_length, length := st.length + nres.2.1.length }
        file := { file' with normalize_state := nres.2.2 } }
    else
      { hash := 0, token := none, file := file' }

/-- The constant `COMPARE_CHUNK_SIZE` (diff_file.c:781). -/
def COMPARE_CHUNK_SIZE : Nat := 4096

/-- The per-datasource data `token_compare` consults: the path, the on-disk
bytes at compare time, the resident chunk buffer, and its chunk index. -/
structure CmpFile where
  path : String
  content : List Char
  buffer : List Char
  chunk : Nat
  deriving DecidableEq, Repr

/-- The token fields used by `token_compare`. -/
structure CmpToken where
  datasource : Nat
  norm_offset : Nat
  raw_length : Nat
  length : Nat
  deriving DecidableEq, Repr

/-- One disk read performed while streaming a token (a `read_chunk` call of
`token_compare`). -/
structure ReadEvent where
  path : String
  offset : Nat
  len : Nat
  deriving DecidableEq, Repr

/-- One side of the comparison loop: the remaining normalized bytes
available in this side's window, the file offset of the next raw read, the
remaining raw bytes of the token, and the carried normalization state. -/
structure CmpSide where
  file : CmpFile
  bufp : List Char
  offset : Nat
  raw_length : Nat
  state : Nat
  deriving DecidableEq, Repr

/-- C `memcmp` over `len` bytes, reduced to its sign (the caller tests the
result only against zero and propagates it as the comparison outcome).  The
out-of-range arms are unreachable when both windows hold at least `len`
bytes. -/
def memcmpBytes : List Char → List Char → Nat → Int
  | _, _, 0 => 0
  | [], _, _ + 1 => 0
  | _ :: _, [], _ + 1 => 0
  | a :: as, b :: bs, n + 1 =>
    if a = b then memcmpBytes as bs n
    else if a.toNat < b.toNat then -1 else 1

/-- The window-refill step of `token_compare` (diff_file.c:852-879): when a
side's normalized window is exhausted, a remaining raw length of zero means
the underlying file changed during the diff
(`SVN_ERR_DIFF_DATASOURCE_MODIFIED`); otherwise read the next
`min raw_length COMPARE_CHUNK_SIZE` raw bytes from disk and re-normalize
them with the carried state. -/
def tcRefill (normalize : Normalizer) (s : CmpSide) (log : List ReadEvent) :
    Except DiffError (CmpSide × List ReadEvent) :=
  if s.bufp.length ≠ 0 then
    .ok (s, log)
  else if s.raw_length = 0 then
    .error (.datasourceModified s.file.path)
  else
    let len := min s.raw_length COMPARE_CHUNK_SIZE
    let bytes := sliceLen s.file.content s.offset len
    let nres := normalize s.state bytes
    .ok ({ s with bufp := nres.2.1, offset := s.offset + len
                  raw_length := s.raw_length - len, state := nres.2.2 },
         log ++ [{ path := s.file.path, offset := s.offset, len := len }])

/-- The `do { ... } while (total_length > 0)` loop of `token_compare`
(diff_file.c:847-897): refill both windows, compare the overlap, and stop on
inequality or when `total_length` bytes have been compared.  `fuel` bounds
the iterations; `token_compare` supplies enough for the raw lengths
involved. -/
def tcLoop (normalize : Normalizer) :
    Nat → Nat → CmpSide → CmpSide → List ReadEvent →
    Except DiffError (Int × List ReadEvent)
  | 0, _, _, _, log => .ok (0, log)
  | fuel + 1, total, s0, s1, log =>
    match tcRefill normalize s0 log with
    | .error e => .error e
    | .ok (s0, log) =>
      match tcRefill normalize s1 log with
      | .error e => .error e
      | .ok (s1, log) =>
        let len := min s0.bufp.length s1.bufp.length
        let cmp := memcmpBytes s0.bufp s1.bufp len
        if cmp ≠ 0 then
          .ok (cmp, log)
        else
          let total := total - len
          if total = 0 then
            .ok (0, log)
          else
            tcLoop normalize fuel total
              { s0 with bufp := s0.bufp.drop len }
              { s1 with bufp := s1.bufp.drop len } log

/-- The per-side set-up of `token_compare` (diff_file.c:821-845): a token
whose starting offset lies in its file's resident chunk is compared
entirely in memory (`raw_length` set to zero and the window covering the
whole token), and any other token starts with an empty window and its full
raw length left to stream from disk. -/
def tcInitSide (t : CmpToken) (f : CmpFile) (total : Nat) : CmpSide :=
  if offset_to_chunk t.norm_offset = f.chunk then
    -- If the start of the token is in memory, the entire token is in memory.
    { file := f
      bufp := (f.buffer.drop (offset_in_chunk t.norm_offset)).take total
      offset := t.norm_offset, raw_length := 0, state := 0 }
  else
    { file := f, bufp := [], offset := t.norm_offset
      raw_length := t.raw_length, state := 0 }

/-- Model of `token_compare` (diff_file.c:784-901).  Tokens of different normalized
lengths compare unequal immediately; a zero-length pair compares equal;
otherwise both sides are set up by `tcInitSide` and the comparison loop
runs.  The result carries the log of disk reads performed. -/
def token_compare (normalize : Normalizer) (files : Nat → CmpFile)
    (t0 t1 : CmpToken) : Except DiffError (Int × List ReadEvent) :=
  if t0.length < t1.length then
    .ok (-1, [])
  else if t1.length < t0.length then
    .ok (1, [])
  else if t0.length = 0 then
    .ok (0, [])
  else
    tcLoop normalize (t0.raw_length + t1.raw_length + t0.length + 1) t0.length
      (tcInitSide t0 (files t0.datasource) t0.length)
      (tcInitSide t1 (files t1.datasource) t0.length)
      []

end DiffFile

/-! ## Theorems -/

namespace FsFs

theorem hashGet_hashSet_some {α : Type} (h : List (String × α)) (k : String) (v : α) :
    hashGet (hashSet h k (some v)) k = some v := by
  simp [hashGet, hashSet, List.find?]

theorem hashGet_hashSet_none {α : Type} (h : List (String × α)) (k : String) :
    hashGet (hashSet h k none) k = none := by
  simp only [hashGet, hashSet]
  rw [List.find?_eq_none.mpr]
  · rfl
  · intro p hp
    have := List.of_mem_filter hp
    simpa using this

/-- C4: the trailer locator requires the last of the 64 bytes read to be a
newline and an earlier newline to occur among them; but on the 64-byte block
whose final line is "123" (no space separator) it does not fail: the forward
space scan stops at the loop bound `num_bytes - 3`, which the error test
`i == num_bytes - 2` never matches, so the function returns successfully
with root offset 123 and a changed-paths offset parsed from the final
digit. -/
theorem get_root_changes_offset_accepts_spaceless_line :
    get_root_changes_offset
        (List.replicate 59 'x' ++ ['\n', '1', '2', '3', '\n']) =
      .ok (123, 3) := by
  decide

/-- C2: when the transaction's base revision differs from the youngest
revision read back from `current` inside the commit critical section,
`svn_fs_fs__commit` fails with the out-of-date error kind before mutating
the repository: the state is returned unchanged, so no `revs/<new_rev>`
file is placed, the `current` file is not rewritten, and the transaction
directory still exists. -/
theorem commit_out_of_date (repo : Repo) (txn : Txn)
    (h : txn.base_rev ≠ repo.current_rev) :
    (svn_fs_fs__commit repo txn).2 = .error .txnOutOfDate ∧
    (svn_fs_fs__commit repo txn).1 = repo ∧
    (svn_fs_fs__commit repo txn).1.current_rev = repo.current_rev ∧
    (repo.current_rev + 1 ∉ repo.revFiles →
      repo.current_rev + 1 ∉ (svn_fs_fs__commit repo txn).1.revFiles) ∧
    (txn.id ∈ repo.txnDirs → txn.id ∈ (svn_fs_fs__commit repo txn).1.txnDirs) := by
  simp [svn_fs_fs__commit, h]

theorem commit_out_of_date_witness :
    (Txn.mk "4-1" 3).base_rev ≠ (Repo.mk 5 [0, 1, 2, 3, 4, 5] [0, 1, 2, 3, 4, 5] ["4-1"]).current_rev ∧
    (svn_fs_fs__commit (Repo.mk 5 [0, 1, 2, 3, 4, 5] [0, 1, 2, 3, 4, 5] ["4-1"])
        (Txn.mk "4-1" 3)).2 = .error .txnOutOfDate ∧
    (svn_fs_fs__commit (Repo.mk 5 [0, 1, 2, 3, 4, 5] [0, 1, 2, 3, 4, 5] ["4-1"])
        (Txn.mk "4-1" 3)).1 = Repo.mk 5 [0, 1, 2, 3, 4, 5] [0, 1, 2, 3, 4, 5] ["4-1"] :=
  ⟨by decide,
   (commit_out_of_date (Repo.mk 5 [0, 1, 2, 3, 4, 5] [0, 1, 2, 3, 4, 5] ["4-1"])
      (Txn.mk "4-1" 3) (by decide)).1,
   (commit_out_of_date (Repo.mk 5 [0, 1, 2, 3, 4, 5] [0, 1, 2, 3, 4, 5] ["4-1"])
      (Txn.mk "4-1" 3) (by decide)).2.1⟩

/-- C3: each read through `rep_read_contents` feeds exactly the emitted
bytes to the running MD5 and finalizes exactly when the cumulative count
reaches `expanded_size`; on a digest mismatch it raises the corruption
error carrying both the expected and the actual digest; and once finalized,
further reads leave the checksum state untouched (finalization happens at
most once). -/
theorem rep_read_contents_md5_discipline (md5 : List Nat → List Nat)
    (rb : RepReadBaton) (bytes : List Nat) :
    (rb.checksum_finalized = false → rb.off + bytes.length ≠ rb.len →
      rep_read_contents md5 rb bytes =
        .ok { rb with hashed := rb.hashed ++ bytes, off := rb.off + bytes.length }) ∧
    (rb.checksum_finalized = false → rb.off + bytes.length = rb.len →
      md5 (rb.hashed ++ bytes) = rb.checksum →
      rep_read_contents md5 rb bytes =
        .ok { rb with hashed := rb.hashed ++ bytes, off := rb.off + bytes.length,
                      checksum_finalized := true }) ∧
    (rb.checksum_finalized = false → rb.off + bytes.length = rb.len →
      md5 (rb.hashed ++ bytes) ≠ rb.checksum →
      rep_read_contents md5 rb bytes =
        .error (.corruptWithDigests "Checksum mismatch while reading representation"
                  rb.checksum (md5 (rb.hashed ++ bytes)))) ∧
    (rb.checksum_finalized = true → rep_read_contents md5 rb bytes = .ok rb) := by
  refine ⟨?_, ?_, ?_, ?_⟩
  · intro h1 h2
    simp [rep_read_contents, h1, h2]
  · intro h1 h2 h3
    simp [rep_read_contents, h1, h2, h3]
  · intro h1 h2 h3
    simp [rep_read_contents, h1, h2, h3]
  · intro h1
    simp [rep_read_contents, h1]

theorem rep_read_contents_md5_discipline_witness :
    (RepReadBaton.mk [] false [2] 2 0).checksum_finalized = false ∧
    0 + ([7, 8] : List Nat).length = 2 ∧
    (fun l : List Nat => [l.length]) ([] ++ [7, 8]) = [2] ∧
    rep_read_contents (fun l : List Nat => [l.length])
        (RepReadBaton.mk [] false [2] 2 0) [7, 8] =
      .ok (RepReadBaton.mk [7, 8] true [2] 2 2) :=
  ⟨rfl, rfl, rfl,
   (rep_read_contents_md5_discipline (fun l : List Nat => [l.length])
      (RepReadBaton.mk [] false [2] 2 0) [7, 8]).2.1 rfl rfl rfl⟩

/-- C1: in `write_final_changed_path_info` the rewrite guard is
`(change->change_kind != svn_fs_path_change_delete) && (! svn_fs_fs__id_txn_id (id))`,
so a non-delete change entry whose node-rev id is transaction-scoped is
written out unchanged even though the node-revision store already maps it
to its permanent revision-qualified id: a transaction-mentioning id reaches
the committed changed-path log. -/
theorem write_final_changed_path_info_keeps_txn_id :
    write_final_changed_path_info
        (fun _ => some (NodeRevId.mk "1" "1" none (some 1) (some 123)))
        [("/foo", SvnPathChange.mk
            (some (NodeRevId.mk "_0" "_0" (some "0-1") none none))
            ChangeKind.modify true false)] =
      .ok [("/foo", SvnPathChange.mk
            (some (NodeRevId.mk "_0" "_0" (some "0-1") none none))
            ChangeKind.modify true false)] ∧
    idTxnId (NodeRevId.mk "_0" "_0" (some "0-1") none none) ≠ none ∧
    idTxnId (NodeRevId.mk "1" "1" none (some 1) (some 123)) = none := by
  decide

end FsFs

namespace FsFs

/-- C9: when a path already has a folded entry, `fold_change` enforces the
ordering sanity checks of fs_fs.c:1804-1830: a change other than reset that
carries no node-rev id is `SVN_ERR_FS_CORRUPT`, and a change whose node-rev
id differs from the recorded one is `SVN_ERR_FS_CORRUPT` unless the
recorded change is a delete. -/
theorem fold_change_ordering_sanity (changes : List (String × SvnPathChange))
    (copyfrom : List (String × String)) (change : ChangeT) (old : SvnPathChange)
    (hold : hashGet changes change.path = some old) :
    (change.noderev_id = none → change.kind ≠ ChangeKind.reset →
      fold_change changes copyfrom change =
        .error (.corrupt "Missing required node revision ID")) ∧
    (∀ nid, change.noderev_id = some nid → old.node_rev_id ≠ some nid →
      old.change_kind ≠ ChangeKind.delete →
      fold_change changes copyfrom change =
        .error (.corrupt "Invalid change ordering: new node revision ID without delete")) := by
  constructor
  · intro h1 h2
    simp [fold_change, hold, h1, h2]
  · intro nid h1 h2 h3
    rw [fold_change, hold]
    simp [h1, h2, h3]

theorem fold_change_ordering_sanity_witness :
    hashGet [("p", SvnPathChange.mk (some (NodeRevId.mk "3" "2" none (some 7) (some 99)))
        ChangeKind.modify false false)] "p" =
      some (SvnPathChange.mk (some (NodeRevId.mk "3" "2" none (some 7) (some 99)))
        ChangeKind.modify false false) ∧
    fold_change
        [("p", SvnPathChange.mk (some (NodeRevId.mk "3" "2" none (some 7) (some 99)))
            ChangeKind.modify false false)]
        []
        (ChangeT.mk "p" (some (NodeRevId.mk "4" "2" none (some 8) (some 11)))
          ChangeKind.modify true false none "") =
      .error (.corrupt "Invalid change ordering: new node revision ID without delete") :=
  ⟨by decide,
   (fold_change_ordering_sanity
      [("p", SvnPathChange.mk (some (NodeRevId.mk "3" "2" none (some 7) (some 99)))
          ChangeKind.modify false false)]
      []
      (ChangeT.mk "p" (some (NodeRevId.mk "4" "2" none (some 8) (some 11)))
        ChangeKind.modify true false none "")
      (SvnPathChange.mk (some (NodeRevId.mk "3" "2" none (some 7) (some 99)))
        ChangeKind.modify false false)
      (by decide)).2
     (NodeRevId.mk "4" "2" none (some 8) (some 11)) (by decide) (by decide) (by decide)⟩

/-- C6 counterexample: folding a delete (whose own flags are false) into an
existing modify entry whose `text_mod` and `prop_mod` are true yields a
delete entry with both flags false: `fold_change` overwrites the recorded
flags with the delete change's flags instead of keeping them. -/
theorem fold_change_delete_overwrites_flags :
    fold_change
        [("p", SvnPathChange.mk (some (NodeRevId.mk "3" "2" none (some 7) (some 99)))
            ChangeKind.modify true true)]
        [("p", "1 /src")]
        (ChangeT.mk "p" (some (NodeRevId.mk "3" "2" none (some 7) (some 99)))
          ChangeKind.delete false false none "") =
      .ok ([("p", SvnPathChange.mk (some (NodeRevId.mk "3" "2" none (some 7) (some 99)))
              ChangeKind.delete false false)],
           []) := by
  decide

/-- C6 (amended): a delete folded into an existing add removes the path's
entry from the folded set entirely, and a delete folded into an existing
modify or replace sets the kind to delete, overwrites the recorded
`text_mod`/`prop_mod` flags with the delete change's own flags, and drops
the cached copyfrom for that path. -/
theorem fold_change_delete_folding (changes : List (String × SvnPathChange))
    (copyfrom : List (String × String)) (change : ChangeT) (old : SvnPathChange)
    (nid : NodeRevId)
    (hold : hashGet changes change.path = some old)
    (hkind : change.kind = ChangeKind.delete)
    (hid : change.noderev_id = some nid)
    (hoid : old.node_rev_id = some nid) :
    (old.change_kind = ChangeKind.add →
      fold_change changes copyfrom change =
        .ok (hashSet changes change.path none, hashSet copyfrom change.path none) ∧
      hashGet (hashSet changes change.path none) change.path = none) ∧
    (old.change_kind = ChangeKind.modify ∨ old.change_kind = ChangeKind.replace →
      fold_change changes copyfrom change =
        .ok (hashSet changes change.path
               (some { old with change_kind := ChangeKind.delete,
                                text_mod := change.text_mod,
                                prop_mod := change.prop_mod }),
             hashSet copyfrom change.path none) ∧
      hashGet (hashSet changes change.path
                 (some { old with change_kind := ChangeKind.delete,
                                  text_mod := change.text_mod,
                                  prop_mod := change.prop_mod })) change.path =
        some { old with change_kind := ChangeKind.delete,
                        text_mod := change.text_mod,
                        prop_mod := change.prop_mod } ∧
      hashGet (hashSet copyfrom change.path none) change.path = none) := by
  constructor
  · intro hadd
    refine ⟨?_, hashGet_hashSet_none changes change.path⟩
    rw [fold_change, hold]
    simp [hid, hoid, hkind, hadd]
  · intro hmr
    refine ⟨?_, hashGet_hashSet_some _ _ _, hashGet_hashSet_none copyfrom change.path⟩
    rw [fold_change, hold]
    rcases hmr with hm | hr
    · simp [hid, hoid, hkind, hm]
    · simp [hid, hoid, hkind, hr]

theorem fold_change_delete_folding_witness :
    hashGet [("p", SvnPathChange.mk (some (NodeRevId.mk "3" "2" none (some 7) (some 99)))
        ChangeKind.add true false)] "p" =
      some (SvnPathChange.mk (some (NodeRevId.mk "3" "2" none (some 7) (some 99)))
        ChangeKind.add true false) ∧
    fold_change
        [("p", SvnPathChange.mk (some (NodeRevId.mk "3" "2" none (some 7) (some 99)))
            ChangeKind.add true false)]
        [("p", "1 /src")]
        (ChangeT.mk "p" (some (NodeRevId.mk "3" "2" none (some 7) (some 99)))
          ChangeKind.delete false false none "") =
      .ok ([], []) :=
  ⟨by decide,
   by
    have h :=
      ((fold_change_delete_folding
          [("p", SvnPathChange.mk (some (NodeRevId.mk "3" "2" none (some 7) (some 99)))
              ChangeKind.add true false)]
          [("p", "1 /src")]
          (ChangeT.mk "p" (some (NodeRevId.mk "3" "2" none (some 7) (some 99)))
            ChangeKind.delete false false none "")
          (SvnPathChange.mk (some (NodeRevId.mk "3" "2" none (some 7) (some 99)))
            ChangeKind.add true false)
          (NodeRevId.mk "3" "2" none (some 7) (some 99))
          (by decide) rfl rfl rfl).1 rfl).1
    simpa [hashSet] using h⟩

end FsFs

namespace FsFs

theorem tolowerByte_idem (c : Nat) : tolowerByte (tolowerByte c) = tolowerByte c := by
  unfold tolowerByte
  split_ifs <;> omega

theorem isxdigit_tolower_iff (c : Nat) : isxdigit (tolowerByte c) = true ↔ isxdigit c = true := by
  simp only [isxdigit, tolowerByte]
  split_ifs with h
  · simp only [Bool.or_eq_true, Bool.and_eq_true, decide_eq_true_eq]
    omega
  · exact Iff.rfl

theorem hexNibble_tolower (c : Nat) : hexNibble (tolowerByte c) = hexNibble c := by
  simp [hexNibble, tolowerByte_idem]

theorem read_rep_md5_go_map_tolower (s : List Nat) :
    read_rep_md5.go (s.map tolowerByte) = read_rep_md5.go s := by
  match s with
  | [] => rfl
  | [c] => rfl
  | c1 :: c2 :: rest =>
    have ih := read_rep_md5_go_map_tolower rest
    simp only [List.map_cons, read_rep_md5.go, ih]
    by_cases h1 : isxdigit c1 <;> by_cases h2 : isxdigit c2 <;>
      simp [isxdigit_tolower_iff, h1, h2, hexNibble_tolower]

theorem read_rep_md5_go_ok_iff (s : List Nat) :
    (∃ d, read_rep_md5.go s = .ok d) ↔ (s.length % 2 = 0 ∧ ∀ c ∈ s, isxdigit c) := by
  match s with
  | [] => simp [read_rep_md5.go]
  | [c] => simp [read_rep_md5.go]
  | c1 :: c2 :: rest =>
    have ih := read_rep_md5_go_ok_iff rest
    by_cases h1 : isxdigit c1
    · by_cases h2 : isxdigit c2
      · rcases hrest : read_rep_md5.go rest with e | bytes
        · simp only [read_rep_md5.go, h1, h2, hrest]
          simp only [hrest] at ih
          constructor
          · rintro ⟨d, hd⟩
            simp at hd
          · rintro ⟨hlen, hall⟩
            have : ∃ d, (Except.error e : Except FsError (List Nat)) = .ok d := by
              apply ih.mpr
              refine ⟨by simp only [List.length_cons] at hlen; omega,
                fun c hc => hall c (by simp [hc])⟩
            rcases this with ⟨d, hd⟩
            simp at hd
        · simp only [read_rep_md5.go, h1, h2, hrest]
          simp only [hrest] at ih
          constructor
          · rintro ⟨d, hd⟩
            have hr : ((rest.length + 1 + 1) % 2 = 0 ∧ ∀ c ∈ rest, isxdigit c) := by
              have := ih.mp ⟨bytes, rfl⟩
              refine ⟨by omega, this.2⟩
            refine ⟨by simpa using hr.1, ?_⟩
            intro c hc
            rcases List.mem_cons.mp hc with rfl | hc
            · exact h1
            · rcases List.mem_cons.mp hc with rfl | hc
              · exact h2
              · exact hr.2 c hc
          · intro _
            exact ⟨_, rfl⟩
      · simp only [read_rep_md5.go, h2]
        constructor
        · rintro ⟨d, hd⟩
          simp at hd
        · rintro ⟨hlen, hall⟩
          exact absurd (hall c2 (by simp)) (by simpa using h2)
    · simp only [read_rep_md5.go, h1]
      constructor
      · rintro ⟨d, hd⟩
        simp at hd
      · rintro ⟨hlen, hall⟩
        exact absurd (hall c1 (by simp)) (by simpa using h1)

/-- C10: the MD5 field parser of `read_rep_offsets` succeeds exactly on
fields of 32 characters all of which are hexadecimal digits (uppercase or
lowercase), rejecting everything else as corrupt; and a field lowercased
character-by-character parses to exactly the same result, so uppercase and
lowercase digits map to the same 16-byte digest. -/
theorem read_rep_md5_hex_field :
    (∀ s : List Nat, (∃ d, read_rep_md5 s = .ok d) ↔
        (s.length = 32 ∧ ∀ c ∈ s, isxdigit c)) ∧
    (∀ s : List Nat, read_rep_md5 (s.map tolowerByte) = read_rep_md5 s) := by
  constructor
  · intro s
    by_cases hlen : s.length = 32
    · rw [read_rep_md5]
      simp only [hlen]
      norm_num
      rw [read_rep_md5_go_ok_iff]
      simp [hlen]
    · rw [read_rep_md5]
      rw [if_pos (by omega)]
      constructor
      · rintro ⟨d, hd⟩
        simp at hd
      · rintro ⟨h, _⟩
        exact absurd h hlen
  · intro s
    rw [read_rep_md5, read_rep_md5]
    simp only [List.length_map]
    by_cases hlen : s.length = 32
    · rw [if_neg (by omega), if_neg (by omega), read_rep_md5_go_map_tolower]
    · rw [if_pos (by omega), if_pos (by omega)]

theorem read_rep_md5_hex_field_witness :
    read_rep_md5 ((List.replicate 32 70).map tolowerByte) =
      read_rep_md5 (List.replicate 32 70) ∧
    (∃ d, read_rep_md5 (List.replicate 32 70) = .ok d) :=
  ⟨read_rep_md5_hex_field.2 (List.replicate 32 70),
   (read_rep_md5_hex_field.1 (List.replicate 32 70)).mpr (by decide)⟩

end FsFs

namespace FsFs

theorem popcount_succ (n : Nat) :
    popcount (n + 1) = popcount ((n + 1) / 2) + (n + 1) % 2 := by
  rw [popcount]

theorem popcount_two_mul (m : Nat) : popcount (2 * m) = popcount m := by
  cases m with
  | zero => rfl
  | succ k =>
    have h : 2 * (k + 1) = (2 * k + 1) + 1 := by ring
    rw [h, popcount_succ]
    have h2 : (2 * k + 1 + 1) / 2 = k + 1 := by omega
    have h3 : (2 * k + 1 + 1) % 2 = 0 := by omega
    rw [h2, h3]
    simp

theorem popcount_two_mul_add_one (m : Nat) :
    popcount (2 * m + 1) = popcount m + 1 := by
  rw [popcount_succ]
  have h2 : (2 * m + 1) / 2 = m := by omega
  have h3 : (2 * m + 1) % 2 = 1 := by omega
  rw [h2, h3]

theorem land_two_mul_add_one_two_mul (m : Nat) :
    (2 * m + 1) &&& (2 * m) = 2 * m := by
  apply Nat.eq_of_testBit_eq
  intro i
  cases i with
  | zero =>
    rw [Nat.testBit_land]
    simp only [Nat.testBit_zero]
    have h1 : (2 * m + 1) % 2 = 1 := by omega
    have h2 : (2 * m) % 2 = 0 := by omega
    rw [h1, h2]
    rfl
  | succ j =>
    rw [Nat.testBit_land]
    simp only [Nat.testBit_succ]
    have h1 : (2 * m + 1) / 2 = m := by omega
    have h2 : (2 * m) / 2 = m := by omega
    rw [h1, h2]
    exact Bool.and_self _

theorem land_two_mul_pred (m : Nat) (hm : m ≠ 0) :
    (2 * m) &&& (2 * m - 1) = 2 * (m &&& (m - 1)) := by
  apply Nat.eq_of_testBit_eq
  intro i
  cases i with
  | zero =>
    rw [Nat.testBit_land]
    simp only [Nat.testBit_zero]
    have h1 : (2 * m) % 2 = 0 := by omega
    have h2 : (2 * (m &&& (m - 1))) % 2 = 0 := by omega
    rw [h1, h2]
    rfl
  | succ j =>
    rw [Nat.testBit_land]
    simp only [Nat.testBit_succ]
    have h1 : (2 * m) / 2 = m := by omega
    have h2 : (2 * m - 1) / 2 = m - 1 := by omega
    have h3 : (2 * (m &&& (m - 1))) / 2 = m &&& (m - 1) := by omega
    rw [h1, h2, h3, Nat.testBit_land]

theorem popcount_land_pred (n : Nat) :
    n ≠ 0 → popcount (n &&& (n - 1)) + 1 = popcount n := by
  induction n using Nat.strong_induction_on with
  | _ n ih =>
    intro hn
    rcases Nat.even_or_odd n with ⟨m, hm⟩ | ⟨m, hm⟩
    · have hm2 : n = 2 * m := by omega
      have hmne : m ≠ 0 := by omega
      subst hm2
      rw [land_two_mul_pred m hmne, popcount_two_mul, popcount_two_mul]
      exact ih m (by omega) hmne
    · subst hm
      have h1 : 2 * m + 1 - 1 = 2 * m := by omega
      rw [h1, land_two_mul_add_one_two_mul, popcount_two_mul,
        popcount_two_mul_add_one]

theorem deltaChainLength_eq (n : Nat) : deltaChainLength n = 1 + popcount n := by
  induction n using Nat.strong_induction_on with
  | _ n ih =>
    by_cases hn : n = 0
    · subst hn
      rw [deltaChainLength]
      simp [popcount]
    · rw [deltaChainLength, dif_neg hn]
      have hlt : n &&& (n - 1) < n :=
        Nat.lt_of_le_of_lt Nat.and_le_right (by omega)
      rw [ih _ hlt]
      have := popcount_land_pred n hn
      omega

theorem walkPredecessors_anc (anc : Nat → NodeRevP)
    (hpred : ∀ i, (anc (i + 1)).predecessor_id = some i) :
    ∀ k m, k ≤ m →
      walkPredecessors (fun i => some (anc i)) k (anc m) = .ok (anc (m - k)) := by
  intro k
  induction k with
  | zero =>
    intro m _
    simp [walkPredecessors]
  | succ j ihj =>
    intro m hkm
    have hm : m = (m - 1) + 1 := by omega
    rw [hm, walkPredecessors, hpred (m - 1)]
    dsimp only
    have hw := ihj (m - 1) (by omega)
    rw [hw]
    have harith : m - 1 - j = (m - 1) + 1 - (j + 1) := by omega
    rw [harith]

/-- C5: a node-rev with predecessor count 0 gets the empty stream as delta
base; one with count `N > 0` gets the data representation of the ancestor
reached by walking back exactly `N - (N &&& (N - 1))` predecessor links,
namely the ancestor with predecessor count `N &&& (N - 1)`; and the delta
chain traversed to reconstruct a node-rev with predecessor count `N` in a
repository whose bases were chosen that way has at most `1 + popcount N`
layers. -/
theorem choose_delta_base_skip (anc : Nat → NodeRevP) (N : Nat)
    (hcount : ∀ i, (anc i).predecessor_count = i)
    (hpred : ∀ i, (anc (i + 1)).predecessor_id = some i) :
    choose_delta_base (fun i => some (anc i)) (anc 0) = .ok none ∧
    (0 < N → choose_delta_base (fun i => some (anc i)) (anc N) =
      .ok (anc (N &&& (N - 1))).data_rep) ∧
    deltaChainLength N ≤ 1 + popcount N := by
  refine ⟨?_, ?_, ?_⟩
  · rw [choose_delta_base, hcount 0]
    rfl
  · intro hN
    have hand : N &&& (N - 1) ≤ N := Nat.le_trans Nat.and_le_right (by omega)
    rw [choose_delta_base, hcount N, if_neg (by omega)]
    dsimp only
    rw [walkPredecessors_anc anc hpred (N - (N &&& (N - 1))) N (by omega)]
    dsimp only
    have harith : N - (N - (N &&& (N - 1))) = N &&& (N - 1) := by omega
    rw [harith]
  · rw [deltaChainLength_eq]

theorem choose_delta_base_skip_witness :
    0 < 6 ∧
    choose_delta_base
        (fun i => some (NodeRevP.mk i (match i with | 0 => none | j + 1 => some j) (some i)))
        ((fun i : Nat => NodeRevP.mk i (match i with | 0 => none | j + 1 => some j) (some i)) 6) =
      .ok ((fun i : Nat =>
          NodeRevP.mk i (match i with | 0 => none | j + 1 => some j) (some i)) (6 &&& (6 - 1))).data_rep ∧
    deltaChainLength 6 ≤ 1 + popcount 6 :=
  ⟨by decide,
   (choose_delta_base_skip
      (fun i => NodeRevP.mk i (match i with | 0 => none | j + 1 => some j) (some i)) 6
      (fun _ => rfl) (fun _ => rfl)).2.1 (by decide),
   (choose_delta_base_skip
      (fun i => NodeRevP.mk i (match i with | 0 => none | j + 1 => some j) (some i)) 6
      (fun _ => rfl) (fun _ => rfl)).2.2⟩

end FsFs

namespace DiffFile

theorem CHUNK_SIZE_eq : CHUNK_SIZE = 2 ^ 17 := by
  norm_num [CHUNK_SIZE, CHUNK_SHIFT, Nat.shiftLeft_eq]

theorem offset_to_chunk_mul (k : Nat) : offset_to_chunk (k * CHUNK_SIZE) = k := by
  rw [offset_to_chunk, CHUNK_SIZE_eq, Nat.shiftRight_eq_div_pow]
  exact Nat.mul_div_cancel k (by norm_num)

theorem offset_in_chunk_mul (k : Nat) : offset_in_chunk (k * CHUNK_SIZE) = 0 := by
  rw [offset_in_chunk, CHUNK_SIZE_eq, Nat.and_pow_two_sub_one_eq_mod]
  simp [Nat.mul_mod_left]

theorem tokenScan_empty_tail (normalize : Normalizer) (adler : Adler)
    (content : List Char) (size fuel : Nat) (st : TokState)
    (hc : st.endp ≤ st.curp) (hch : st.chunk + 1 = offset_to_chunk size)
    (hin : offset_in_chunk size = 0) :
    ∃ st', tokenScan normalize adler content size (fuel + 2) false st = (0, st') ∧
      st'.curp = 0 ∧ st'.raw_length = st.raw_length := by
  have h0 : st.endp - st.curp = 0 := by omega
  have hne : st.chunk ≠ offset_to_chunk size := by omega
  have hreg : bufRegion content st.chunk st.curp st.endp = [] := by
    rw [bufRegion, h0, sliceLen, if_pos rfl]
  simp only [tokenScan, hreg, find_eol_start, hne, if_false, hch, if_true, hin,
    reduceIte, h0, Nat.add_zero, bufRegion, Nat.sub_self, sliceLen]
  exact ⟨_, rfl, rfl, rfl⟩

/-- C7: for a file whose size is exactly `k * CHUNK_SIZE` (k ≥ 1), once the
file's bytes are exhausted at the chunk boundary — the read position at the
end of resident chunk `k - 1`, or already on the empty trailing chunk `k` —
`datasource_get_next_token` returns no token at all rather than a
zero-raw-length token. -/
theorem get_next_token_chunk_boundary (normalize : Normalizer) (adler : Adler)
    (content : List Char) (k : Nat) (file : FileInfo)
    (hk : 1 ≤ k) (hsize : file.size = k * CHUNK_SIZE)
    (hsuf1 : file.suffix_start_chunk = 0) (hsuf2 : file.suffix_offset_in_chunk = 0) :
    (file.chunk = k - 1 → file.curp = CHUNK_SIZE → file.endp = CHUNK_SIZE →
      (datasource_get_next_token normalize adler content file).token = none) ∧
    (file.chunk = k → file.curp = 0 → file.endp = 0 →
      (datasource_get_next_token normalize adler content file).token = none) := by
  have hlast : offset_to_chunk file.size = k := by rw [hsize, offset_to_chunk_mul]
  have hin : offset_in_chunk file.size = 0 := by rw [hsize, offset_in_chunk_mul]
  constructor
  · intro hchunk hcurp hendp
    have hfuel : k + 1 - file.chunk = 2 := by omega
    obtain ⟨st', hts, hcur, hraw⟩ :=
      tokenScan_empty_tail normalize adler content file.size 0
        { chunk := file.chunk, curp := file.curp, endp := file.endp
          norm_state := file.normalize_state, raw_length := 0, length := 0, h := 0 }
        (by simp [hcurp, hendp]) (by simp only []; rw [hlast, hchunk]; omega) hin
    norm_num at hts
    have hg1 : (file.curp = file.endp ∧ file.chunk = k) = False :=
      eq_false (by rintro ⟨-, h2⟩; omega)
    rw [datasource_get_next_token]
    simp [hlast, hsuf1, hsuf2, hg1, hfuel, hts, hcur, hraw]
  · intro hchunk hcurp hendp
    rw [datasource_get_next_token]
    simp [hlast, hchunk, hcurp, hendp]

theorem get_next_token_chunk_boundary_witness :
    1 ≤ 1 ∧
    (FileInfo.mk "f" 131072 0 131072 131072 0 0 0).size = 1 * CHUNK_SIZE ∧
    (datasource_get_next_token (fun s l => (0, l, s)) (fun h _ => h) []
        (FileInfo.mk "f" 131072 0 131072 131072 0 0 0)).token = none :=
  ⟨le_refl 1, by decide,
   (get_next_token_chunk_boundary (fun s l => (0, l, s)) (fun h _ => h) [] 1
      (FileInfo.mk "f" 131072 0 131072 131072 0 0 0)
      (le_refl 1) (by decide) rfl rfl).1 rfl rfl rfl⟩

end DiffFile


namespace DiffFile

theorem tcRefill_bound (normalize : Normalizer) (s : CmpSide)
    (log log' : List ReadEvent) (s' : CmpSide)
    (h : tcRefill normalize s log = .ok (s', log'))
    (hlog : ∀ e ∈ log, e.len ≤ COMPARE_CHUNK_SIZE ∧ 1 ≤ e.len) :
    ∀ e ∈ log', e.len ≤ COMPARE_CHUNK_SIZE ∧ 1 ≤ e.len := by
  rw [tcRefill] at h
  by_cases h1 : s.bufp.length ≠ 0
  · rw [if_pos h1] at h
    simp only [Except.ok.injEq, Prod.mk.injEq] at h
    obtain ⟨-, rfl⟩ := h
    exact hlog
  · rw [if_neg h1] at h
    by_cases h2 : s.raw_length = 0
    · rw [if_pos h2] at h
      simp at h
    · rw [if_neg h2] at h
      simp only [Except.ok.injEq, Prod.mk.injEq] at h
      obtain ⟨-, rfl⟩ := h
      intro e he
      rcases List.mem_append.mp he with he | he
      · exact hlog e he
      · simp only [List.mem_singleton] at he
        subst he
        refine ⟨min_le_right _ _, ?_⟩
        have hccs : 1 ≤ COMPARE_CHUNK_SIZE := by norm_num [COMPARE_CHUNK_SIZE]
        exact le_min (by omega) hccs

theorem tcLoop_reads_bounded (normalize : Normalizer) :
    ∀ (fuel total : Nat) (s0 s1 : CmpSide) (log : List ReadEvent)
      (c : Int) (log' : List ReadEvent),
      tcLoop normalize fuel total s0 s1 log = .ok (c, log') →
      (∀ e ∈ log, e.len ≤ COMPARE_CHUNK_SIZE ∧ 1 ≤ e.len) →
      ∀ e ∈ log', e.len ≤ COMPARE_CHUNK_SIZE ∧ 1 ≤ e.len := by
  intro fuel
  induction fuel with
  | zero =>
    intro total s0 s1 log c log' h hlog
    rw [tcLoop] at h
    simp only [Except.ok.injEq, Prod.mk.injEq] at h
    obtain ⟨-, rfl⟩ := h
    exact hlog
  | succ f ih =>
    intro total s0 s1 log c log' h hlog
    rw [tcLoop] at h
    cases hr0 : tcRefill normalize s0 log with
    | error e0 =>
      rw [hr0] at h
      simp at h
    | ok p0 =>
      obtain ⟨s0', log0⟩ := p0
      rw [hr0] at h
      dsimp only at h
      have hb0 := tcRefill_bound normalize s0 log log0 s0' hr0 hlog
      cases hr1 : tcRefill normalize s1 log0 with
      | error e1 =>
        rw [hr1] at h
        simp at h
      | ok p1 =>
        obtain ⟨s1', log1⟩ := p1
        rw [hr1] at h
        have hb1 := tcRefill_bound normalize s1 log0 log1 s1' hr1 hb0
        dsimp only at h
        split_ifs at h with hcmp htot
        · simp only [Except.ok.injEq, Prod.mk.injEq] at h
          obtain ⟨-, rfl⟩ := h
          exact hb1
        · simp only [Except.ok.injEq, Prod.mk.injEq] at h
          obtain ⟨-, rfl⟩ := h
          exact hb1
        · exact ih _ _ _ _ c log' h hb1

/-- C8: `token_compare` decides tokens of differing normalized lengths
without any file access; with equal nonzero lengths and both tokens
starting in their file's resident chunk, the whole comparison is the
in-memory `memcmp` of the resident windows with no disk read; a
non-resident token whose remaining raw length is zero while normalized
bytes are still needed fails with the datasource-modified error naming the
offending file; and every disk read performed while streaming reads at
least one and at most `COMPARE_CHUNK_SIZE = 4096` raw bytes, re-normalized
with the carried state. -/
theorem token_compare_spec (normalize : Normalizer) (files : Nat → CmpFile)
    (t0 t1 : CmpToken) :
    (t0.length < t1.length → token_compare normalize files t0 t1 = .ok (-1, [])) ∧
    (t1.length < t0.length → token_compare normalize files t0 t1 = .ok (1, [])) ∧
    (t0.length = t1.length → t0.length ≠ 0 →
      offset_to_chunk t0.norm_offset = (files t0.datasource).chunk →
      offset_to_chunk t1.norm_offset = (files t1.datasource).chunk →
      offset_in_chunk t0.norm_offset + t0.length ≤ (files t0.datasource).buffer.length →
      offset_in_chunk t1.norm_offset + t1.length ≤ (files t1.datasource).buffer.length →
      token_compare normalize files t0 t1 =
        .ok (memcmpBytes
              (((files t0.datasource).buffer.drop (offset_in_chunk t0.norm_offset)).take t0.length)
              (((files t1.datasource).buffer.drop (offset_in_chunk t1.norm_offset)).take t0.length)
              t0.length, [])) ∧
    (t0.length = t1.length → t0.length ≠ 0 →
      offset_to_chunk t0.norm_offset ≠ (files t0.datasource).chunk → t0.raw_length = 0 →
      token_compare normalize files t0 t1 =
        .error (.datasourceModified (files t0.datasource).path)) ∧
    (t0.length = t1.length → t0.length ≠ 0 →
      offset_to_chunk t0.norm_offset = (files t0.datasource).chunk →
      offset_in_chunk t0.norm_offset + t0.length ≤ (files t0.datasource).buffer.length →
      offset_to_chunk t1.norm_offset ≠ (files t1.datasource).chunk → t1.raw_length = 0 →
      token_compare normalize files t0 t1 =
        .error (.datasourceModified (files t1.datasource).path)) ∧
    (∀ (c : Int) (log' : List ReadEvent),
      token_compare normalize files t0 t1 = .ok (c, log') →
      ∀ e ∈ log', e.len ≤ COMPARE_CHUNK_SIZE ∧ 1 ≤ e.len) := by
  refine ⟨?_, ?_, ?_, ?_, ?_, ?_⟩
  · intro h
    rw [token_compare, if_pos h]
  · intro h
    rw [token_compare, if_neg (by omega), if_pos h]
  · intro heq hpos hr0 hr1 hb0 hb1
    have hw0 : (((files t0.datasource).buffer.drop
        (offset_in_chunk t0.norm_offset)).take t0.length).length = t0.length := by
      simp only [List.length_take, List.length_drop]
      omega
    have hw1 : (((files t1.datasource).buffer.drop
        (offset_in_chunk t1.norm_offset)).take t0.length).length = t0.length := by
      simp only [List.length_take, List.length_drop]
      omega
    have hi0 : tcInitSide t0 (files t0.datasource) t0.length =
        { file := files t0.datasource
          bufp := ((files t0.datasource).buffer.drop
            (offset_in_chunk t0.norm_offset)).take t0.length
          offset := t0.norm_offset, raw_length := 0, state := 0 } := by
      rw [tcInitSide, if_pos hr0]
    have hi1 : tcInitSide t1 (files t1.datasource) t0.length =
        { file := files t1.datasource
          bufp := ((files t1.datasource).buffer.drop
            (offset_in_chunk t1.norm_offset)).take t0.length
          offset := t1.norm_offset, raw_length := 0, state := 0 } := by
      rw [tcInitSide, if_pos hr1]
    have hskip0 : tcRefill normalize
        { file := files t0.datasource
          bufp := ((files t0.datasource).buffer.drop
            (offset_in_chunk t0.norm_offset)).take t0.length
          offset := t0.norm_offset, raw_length := 0, state := 0 } [] =
        .ok ({ file := files t0.datasource
               bufp := ((files t0.datasource).buffer.drop
                 (offset_in_chunk t0.norm_offset)).take t0.length
               offset := t0.norm_offset, raw_length := 0, state := 0 }, []) := by
      rw [tcRefill, if_pos (by simp only [hw0]; exact hpos)]
    have hskip1 : tcRefill normalize
        { file := files t1.datasource
          bufp := ((files t1.datasource).buffer.drop
            (offset_in_chunk t1.norm_offset)).take t0.length
          offset := t1.norm_offset, raw_length := 0, state := 0 } [] =
        .ok ({ file := files t1.datasource
               bufp := ((files t1.datasource).buffer.drop
                 (offset_in_chunk t1.norm_offset)).take t0.length
               offset := t1.norm_offset, raw_length := 0, state := 0 }, []) := by
      rw [tcRefill, if_pos (by simp only [hw1]; exact hpos)]
    rw [token_compare, if_neg (by omega), if_neg (by omega), if_neg hpos]
    rw [tcLoop, hi0, hi1, hskip0]
    dsimp only
    rw [hskip1]
    dsimp only
    rw [hw0, hw1, Nat.min_self]
    by_cases hcmp : memcmpBytes
        (((files t0.datasource).buffer.drop (offset_in_chunk t0.norm_offset)).take t0.length)
        (((files t1.datasource).buffer.drop (offset_in_chunk t1.norm_offset)).take t0.length)
        t0.length = 0
    · rw [if_neg (by simpa using hcmp), if_pos (by omega), hcmp]
    · rw [if_pos hcmp]
  · intro heq hpos hnr0 hraw0
    have hi0 : tcInitSide t0 (files t0.datasource) t0.length =
        { file := files t0.datasource, bufp := [], offset := t0.norm_offset
          raw_length := t0.raw_length, state := 0 } := by
      rw [tcInitSide, if_neg hnr0]
    have hfail0 : tcRefill normalize
        { file := files t0.datasource, bufp := [], offset := t0.norm_offset
          raw_length := t0.raw_length, state := 0 } [] =
        .error (.datasourceModified (files t0.datasource).path) := by
      rw [tcRefill, if_neg (by simp), if_pos hraw0]
    rw [token_compare, if_neg (by omega), if_neg (by omega), if_neg hpos]
    rw [tcLoop, hi0, hfail0]
  · intro heq hpos hr0 hb0 hnr1 hraw1
    have hw0 : (((files t0.datasource).buffer.drop
        (offset_in_chunk t0.norm_offset)).take t0.length).length = t0.length := by
      simp only [List.length_take, List.length_drop]
      omega
    have hi0 : tcInitSide t0 (files t0.datasource) t0.length =
        { file := files t0.datasource
          bufp := ((files t0.datasource).buffer.drop
            (offset_in_chunk t0.norm_offset)).take t0.length
          offset := t0.norm_offset, raw_length := 0, state := 0 } := by
      rw [tcInitSide, if_pos hr0]
    have hskip0 : tcRefill normalize
        { file := files t0.datasource
          bufp := ((files t0.datasource).buffer.drop
            (offset_in_chunk t0.norm_offset)).take t0.length
          offset := t0.norm_offset, raw_length := 0, state := 0 } [] =
        .ok ({ file := files t0.datasource
               bufp := ((files t0.datasource).buffer.drop
                 (offset_in_chunk t0.norm_offset)).take t0.length
               offset := t0.norm_offset, raw_length := 0, state := 0 }, []) := by
      rw [tcRefill, if_pos (by simp only [hw0]; exact hpos)]
    have hi1 : tcInitSide t1 (files t1.datasource) t0.length =
        { file := files t1.datasource, bufp := [], offset := t1.norm_offset
          raw_length := t1.raw_length, state := 0 } := by
      rw [tcInitSide, if_neg hnr1]
    have hfail1 : tcRefill normalize
        { file := files t1.datasource, bufp := [], offset := t1.norm_offset
          raw_length := t1.raw_length, state := 0 } [] =
        .error (.datasourceModified (files t1.datasource).path) := by
      rw [tcRefill, if_neg (by simp), if_pos hraw1]
    rw [token_compare, if_neg (by omega), if_neg (by omega), if_neg hpos]
    rw [tcLoop, hi0, hi1, hskip0]
    dsimp only
    rw [hfail1]
  · intro c log' h
    rw [token_compare] at h
    by_cases h1 : t0.length < t1.length
    · rw [if_pos h1] at h
      simp only [Except.ok.injEq, Prod.mk.injEq] at h
      obtain ⟨-, rfl⟩ := h
      simp
    · rw [if_neg h1] at h
      by_cases h2 : t1.length < t0.length
      · rw [if_pos h2] at h
        simp only [Except.ok.injEq, Prod.mk.injEq] at h
        obtain ⟨-, rfl⟩ := h
        simp
      · rw [if_neg h2] at h
        by_cases h3 : t0.length = 0
        · rw [if_pos h3] at h
          simp only [Except.ok.injEq, Prod.mk.injEq] at h
          obtain ⟨-, rfl⟩ := h
          simp
        · rw [if_neg h3] at h
          exact tcLoop_reads_bounded normalize _ _ _ _ _ c log' h (by simp)

theorem token_compare_spec_witness :
    (CmpToken.mk 0 0 1 1).length < (CmpToken.mk 1 0 2 2).length ∧
    token_compare (fun s l => (0, l, s)) (fun _ => CmpFile.mk "f" [] [] 0)
        (CmpToken.mk 0 0 1 1) (CmpToken.mk 1 0 2 2) = .ok (-1, []) :=
  ⟨by decide,
   (token_compare_spec (fun s l => (0, l, s)) (fun _ => CmpFile.mk "f" [] [] 0)
      (CmpToken.mk 0 0 1 1) (CmpToken.mk 1 0 2 2)).1 (by decide)⟩

end DiffFile
